import Mathlib

/-!
# Verification of the goset concurrent set container (`set.go`)

Shallow embedding of the repository's single source file `set.go`.

The Go `Set` holds a membership table `m : map[interface{}]struct{}`, a
`sync.RWMutex`, and a `kind : reflect.Kind` tag.  The lock only serializes
individual operations; each exported operation is an atomic state
transformer, so the embedding models a `Set` as a value (the map's key
collection, in iteration order, plus the kind tag) and every operation as a
pure function from old state to new state paired with its Go return values.

Go's `reflect.Kind` is modelled by the inductive `Kind` (restricted to the
kinds exercised here) and dynamically typed `interface{}` values by the
inductive `Value`, with `Value.kind` playing the role of
`reflect.TypeOf(v).Kind()`.  A crucial detail of the source is kept
faithfully: `Add`, `Remove` and `Has` invoke the variadic
`typecheck(items ...interface{})` as `s.typecheck(items)` — without `...` —
so `typecheck` receives the whole argument slice as its single item, a value
of kind `reflect.Slice` (modelled as `Value.vslice` of the argument list).

Errors returned by the source (`fmt.Errorf` values) are modelled by the
inductive `Err`, carrying exactly the kinds interpolated into the format
strings.
-/

set_option autoImplicit false

namespace Goset

/-- The subset of `reflect.Kind` used by the development. -/
inductive Kind where
  | bool
  | int
  | string
  | slice
  | struct
  | float
  | ptr
  deriving DecidableEq

mutual
/-- Dynamically typed Go values (`interface{}`).  `vstruct` carries the name
of its concrete struct type plus its field values: distinct struct types are
distinct values but share `Kind.struct`.  `vslice` is used chiefly to model
the `[]interface{}` argument slice passed (unexpanded) to `typecheck`. -/
inductive Value where
  | vbool : Bool → Value
  | vint : Int → Value
  | vstr : String → Value
  | vslice : ValueList → Value
  | vstruct : String → ValueList → Value
  deriving DecidableEq
/-- A `[]interface{}` payload inside a `Value` (kept as a separate inductive
so that equality stays derivable). -/
inductive ValueList where
  | nil : ValueList
  | cons : Value → ValueList → ValueList
  deriving DecidableEq
end

/-- Repackage a Lean-level list of values as a `ValueList` payload. -/
def ValueList.ofList : List Value → ValueList
  | [] => .nil
  | x :: xs => .cons x (ofList xs)

/-- Name of a concrete struct type used in examples; `vstruct fooName`
and `vstruct barName` are values of distinct concrete types that share
`Kind.struct`. -/
def fooName : String := "Foo"

/-- Name of a second, different concrete struct type. -/
def barName : String := "Bar"

/-- Model of `reflect.TypeOf(item).Kind()`. -/
def Value.kind : Value → Kind
  | .vbool _ => .bool
  | .vint _ => .int
  | .vstr _ => .string
  | .vslice _ => .slice
  | .vstruct _ _ => .struct

/-- The two error shapes produced by `set.go`, carrying the kinds that the
source interpolates into its `fmt.Errorf` format strings.
`typeViolation k sk` is "tried to insert value of kind k into a set of kind
sk"; `kindMismatch a b` is "cannot perform the requested operation on
mismatched sets; a != b". -/
inductive Err where
  | typeViolation : Kind → Kind → Err
  | kindMismatch : Kind → Kind → Err
  deriving DecidableEq

/-- The `Set` struct: `m` is the key collection of the membership table
`map[interface{}]struct{}` (in iteration order), `kind` the element-kind
tag.  The `sync.RWMutex` needs no counterpart: it only makes each operation
atomic, which the functional embedding gives for free. -/
structure Set where
  m : List Value
  kind : Kind
  deriving DecidableEq

/-- Effect of `s.m[item] = struct{}{}` on the key collection. -/
def insertKey (m : List Value) (item : Value) : List Value :=
  if item ∈ m then m else m ++ [item]

/-- Effect of `delete(s.m, item)` on the key collection. -/
def removeKey (m : List Value) (item : Value) : List Value :=
  m.filter (fun y => decide (y ≠ item))

namespace Set

/-- Go `typecheck(items ...interface{})`: fails at the first item whose
`reflect.Kind` differs from the set's kind. -/
def typecheck (s : Set) (items : List Value) : Option Err :=
  match items.find? (fun item => item.kind != s.kind) with
  | some item => some (.typeViolation item.kind s.kind)
  | none => none

/-- Go `typematch(t *Set)`: fails when the two sets' kinds differ. -/
def typematch (s t : Set) : Option Err :=
  if s.kind ≠ t.kind then some (.kindMismatch s.kind t.kind) else none

/-- Go `Add(items ...interface{}) error`.  Returns the updated set together
with the Go return value.  NOTE the source calls `s.typecheck(items)`
without expanding the slice, so typecheck inspects the single value
`vslice items` of kind `slice`. -/
def Add (s : Set) (items : List Value) : Set × Option Err :=
  if items.isEmpty then (s, none)
  else
    match s.typecheck [Value.vslice (ValueList.ofList items)] with
    | some e => (s, some e)
    | none => (Set.mk (items.foldl insertKey s.m) s.kind, none)

/-- Go `Remove(items ...interface{}) error`; same unexpanded `typecheck` call. -/
def Remove (s : Set) (items : List Value) : Set × Option Err :=
  if items.isEmpty then (s, none)
  else
    match s.typecheck [Value.vslice (ValueList.ofList items)] with
    | some e => (s, some e)
    | none => (Set.mk (items.foldl removeKey s.m) s.kind, none)

/-- Go `Has(items ...interface{}) (bool, error)`; same unexpanded `typecheck`
call; true only when every item is a key of the table. -/
def Has (s : Set) (items : List Value) : Bool × Option Err :=
  if items.isEmpty then (false, none)
  else
    match s.typecheck [Value.vslice (ValueList.ofList items)] with
    | some e => (false, some e)
    | none => (items.all (fun item => decide (item ∈ s.m)), none)

/-- Go `Size() int` = `len(s.m)`. -/
def Size (s : Set) : Nat := s.m.length

/-- Go `Clear()`. -/
def Clear (s : Set) : Set := Set.mk [] s.kind

/-- Go `IsEmpty() bool`. -/
def IsEmpty (s : Set) : Bool := s.Size == 0

/-- The loop `for _, item := range l { u.Add(item) }`. -/
def addEach (u : Set) (l : List Value) : Set :=
  l.foldl (fun u item => (u.Add [item]).1) u

/-- The loop `for _, item := range l { u.Remove(item) }`. -/
def removeEach (u : Set) (l : List Value) : Set :=
  l.foldl (fun u item => (u.Remove [item]).1) u

/-- Go `List() []interface{}`: snapshot of the table's keys.  (Declared last in
this block so that the name does not shadow the list type in the signatures
above.) -/
def List (s : Set) := s.m

end Set

/-- Go `New(kind, items...)`: builds the empty set and calls `Add(items...)`,
DISCARDING its error. -/
def New (kind : Kind) (items : List Value) : Set :=
  ((Set.mk [] kind).Add items).1

namespace Set

/-- Go `Copy() *Set` = `New(s.kind, s.List()...)`. -/
def Copy (s : Set) : Set := New s.kind s.List

/-- Go `Union(t *Set) (*Set, error)`: `u := New(s.kind, t.List()...)`, then add
every element of `s.List()`. -/
def Union (s t : Set) : Except Err Set :=
  match s.typematch t with
  | some e => .error e
  | none => .ok (addEach (New s.kind t.List) s.List)

/-- Go `Merge(t *Set) error`: adds every element of `t.List()` to `s`. -/
def Merge (s t : Set) : Set × Option Err :=
  match s.typematch t with
  | some e => (s, some e)
  | none => (addEach s t.List, none)

/-- Go `Separate(t *Set) error`: removes every element of `t.List()` from `s`. -/
def Separate (s t : Set) : Set × Option Err :=
  match s.typematch t with
  | some e => (s, some e)
  | none => (removeEach s t.List, none)

/-- Go `Intersection(t *Set) (*Set, error)`: both loops of the source, each
adding an item when the opposite set `Has` it (error of `Has` discarded). -/
def Intersection (s t : Set) : Except Err Set :=
  match s.typematch t with
  | some e => .error e
  | none =>
    let u := New s.kind []
    let u := s.List.foldl
      (fun u item => if (t.Has [item]).1 then (u.Add [item]).1 else u) u
    let u := t.List.foldl
      (fun u item => if (s.Has [item]).1 then (u.Add [item]).1 else u) u
    .ok u

/-- Go `Difference(t *Set) (*Set, error)`: adds the items of `s.List()` that
`t` does not `Has` (error of `Has` discarded). -/
def Difference (s t : Set) : Except Err Set :=
  match s.typematch t with
  | some e => .error e
  | none =>
    let u := New s.kind []
    .ok (s.List.foldl
      (fun u item => if (t.Has [item]).1 then u else (u.Add [item]).1) u)

/-- Go `SymmetricDifference(t *Set) (*Set, error)` =
`u, _ := s.Difference(t); v, _ := t.Difference(s); res, _ := u.Union(v)`.
After `typematch` succeeds the three inner calls cannot fail (proved below),
so the error branches written here to keep the function total are
unreachable. -/
def SymmetricDifference (s t : Set) : Except Err Set :=
  match s.typematch t with
  | some e => .error e
  | none =>
    match s.Difference t, t.Difference s with
    | .ok u, .ok v => u.Union v
    | .error e, _ => .error e
    | .ok _, .error e => .error e

/-- Go `IsEqual(t *Set) (bool, error)`: equal sizes and `s.Size() == u.Size()`
for `u, _ := s.Union(t)`.  The `.error` branch of the inner match is
unreachable once `typematch` has succeeded. -/
def IsEqual (s t : Set) : Bool × Option Err :=
  match s.typematch t with
  | some e => (false, some e)
  | none =>
    if s.Size ≠ t.Size then (false, none)
    else
      match s.Union t with
      | .ok u => if s.Size ≠ u.Size then (false, none) else (true, none)
      | .error _ => (false, none)

/-- Go `IsSubset(t *Set) (bool, error)`: true when `s` `Has` every element of
`t.List()` (error of `Has` discarded). -/
def IsSubset (s t : Set) : Bool × Option Err :=
  match s.typematch t with
  | some e => (false, some e)
  | none => (t.List.all (fun item => (s.Has [item]).1), none)

/-- Go `IsSuperset(t *Set) (bool, error)` = `t.IsSubset(s)`. -/
def IsSuperset (s t : Set) : Bool × Option Err := t.IsSubset s

/-- States reachable through the API.  A Go map never stores a key twice
(`Nodup`), and because `Add` hands `typecheck` the whole argument slice — a
value of kind `slice` — every insertion into a set whose kind is not
`slice` is rejected, so such a set stays empty. -/
def WF (s : Set) : Prop :=
  s.m.Nodup ∧ (s.kind ≠ Kind.slice → s.m = [])

end Set

section Lemmas

open Value

variable {s t u : Set} {m l acc : List Value} {a x : Value} {items : List Value}

@[simp] lemma kind_vslice (vl : ValueList) : (Value.vslice vl).kind = Kind.slice := rfl

lemma mem_insertKey : a ∈ insertKey m x ↔ a ∈ m ∨ a = x := by
  unfold insertKey
  split
  · constructor
    · exact Or.inl
    · rintro (h | rfl)
      · exact h
      · assumption
  · simp

lemma nodup_insertKey (h : m.Nodup) : (insertKey m x).Nodup := by
  unfold insertKey
  split
  · exact h
  · simpa [List.nodup_append] using ⟨h, ‹x ∉ m›⟩

lemma mem_foldl_insertKey : ∀ (l m : List Value), a ∈ l.foldl insertKey m ↔ a ∈ m ∨ a ∈ l := by
  intro l
  induction l with
  | nil => simp
  | cons x xs ih =>
    intro m
    rw [List.foldl_cons, ih, mem_insertKey]
    simp [or_assoc]

lemma nodup_foldl_insertKey : ∀ (l m : List Value), m.Nodup → (l.foldl insertKey m).Nodup := by
  intro l
  induction l with
  | nil => simp
  | cons x xs ih =>
    intro m hm
    rw [List.foldl_cons]
    exact ih _ (nodup_insertKey hm)

lemma foldl_insertKey_of_subset :
    ∀ (l acc : List Value), (∀ x ∈ l, x ∈ acc) → l.foldl insertKey acc = acc := by
  intro l
  induction l with
  | nil => simp
  | cons x xs ih =>
    intro acc h
    rw [List.foldl_cons]
    have hx : insertKey acc x = acc := by
      unfold insertKey
      rw [if_pos (h x (by simp))]
    rw [hx]
    exact ih _ fun y hy => h y (by simp [hy])

lemma foldl_insertKey_fresh :
    ∀ (l acc : List Value), (∀ x ∈ l, x ∉ acc) → l.Nodup → l.foldl insertKey acc = acc ++ l := by
  intro l
  induction l with
  | nil => simp
  | cons x xs ih =>
    intro acc h hnd
    rw [List.foldl_cons]
    have hx : insertKey acc x = acc ++ [x] := by
      unfold insertKey
      rw [if_neg (h x (by simp))]
    rw [hx, ih (acc ++ [x]), List.append_assoc]
    · rfl
    · intro y hy
      simp only [List.mem_append, List.mem_singleton]
      rintro (hc | hc)
      · exact h y (by simp [hy]) hc
      · exact (List.nodup_cons.mp hnd).1 (hc ▸ hy)
    · exact (List.nodup_cons.mp hnd).2

lemma foldl_insertKey_nil (h : l.Nodup) : l.foldl insertKey [] = l := by
  simpa using foldl_insertKey_fresh l [] (by simp) h

lemma isEmpty_false (hne : l ≠ []) : l.isEmpty = false := by
  cases l with
  | nil => exact absurd rfl hne
  | cons x xs => rfl

lemma typecheck_wrapper_of_ne (hk : s.kind ≠ Kind.slice) (items : List Value) :
    s.typecheck [Value.vslice (ValueList.ofList items)] =
      some (Err.typeViolation Kind.slice s.kind) := by
  unfold Set.typecheck
  rw [List.find?_cons_of_pos _ (by simpa [bne_iff_ne] using Ne.symm hk)]
  rfl

lemma typecheck_wrapper_of_eq (hk : s.kind = Kind.slice) (items : List Value) :
    s.typecheck [Value.vslice (ValueList.ofList items)] = none := by
  unfold Set.typecheck
  rw [List.find?_cons_of_neg _ (by simp [hk]), List.find?_nil]

lemma typecheck_of_kinds (h : ∀ i ∈ items, i.kind = s.kind) : s.typecheck items = none := by
  have hf : items.find? (fun item => item.kind != s.kind) = none :=
    List.find?_eq_none.mpr fun x hx => by simp [h x hx]
  unfold Set.typecheck
  rw [hf]

lemma typematch_of_eq (h : s.kind = t.kind) : s.typematch t = none := by
  unfold Set.typematch
  rw [if_neg (by simp [h])]

lemma typematch_of_ne (h : s.kind ≠ t.kind) :
    s.typematch t = some (Err.kindMismatch s.kind t.kind) := by
  unfold Set.typematch
  rw [if_pos h]

lemma Add_not_slice (hk : s.kind ≠ Kind.slice) (hne : items ≠ []) :
    s.Add items = (s, some (Err.typeViolation Kind.slice s.kind)) := by
  unfold Set.Add
  rw [isEmpty_false hne, typecheck_wrapper_of_ne hk]
  simp

lemma Add_slice (hk : s.kind = Kind.slice) (items : List Value) :
    s.Add items = (Set.mk (items.foldl insertKey s.m) s.kind, none) := by
  cases items with
  | nil => rfl
  | cons x xs =>
    unfold Set.Add
    rw [isEmpty_false (by simp), typecheck_wrapper_of_eq hk]
    simp

lemma Remove_not_slice (hk : s.kind ≠ Kind.slice) (hne : items ≠ []) :
    s.Remove items = (s, some (Err.typeViolation Kind.slice s.kind)) := by
  unfold Set.Remove
  rw [isEmpty_false hne, typecheck_wrapper_of_ne hk]
  simp

lemma Remove_slice (hk : s.kind = Kind.slice) (items : List Value) :
    s.Remove items = (Set.mk (items.foldl removeKey s.m) s.kind, none) := by
  cases items with
  | nil => rfl
  | cons x xs =>
    unfold Set.Remove
    rw [isEmpty_false (by simp), typecheck_wrapper_of_eq hk]
    simp

lemma Has_not_slice (hk : s.kind ≠ Kind.slice) (hne : items ≠ []) :
    s.Has items = (false, some (Err.typeViolation Kind.slice s.kind)) := by
  unfold Set.Has
  rw [isEmpty_false hne, typecheck_wrapper_of_ne hk]
  simp

lemma Has_slice (hk : s.kind = Kind.slice) (hne : items ≠ []) :
    s.Has items = (items.all (fun item => decide (item ∈ s.m)), none) := by
  unfold Set.Has
  rw [isEmpty_false hne, typecheck_wrapper_of_eq hk]
  simp

lemma Has_singleton_slice (hk : s.kind = Kind.slice) (x : Value) :
    s.Has [x] = (decide (x ∈ s.m), none) := by
  rw [Has_slice hk (by simp)]
  simp

lemma Add_kind (s : Set) (items : List Value) : ((s.Add items).1).kind = s.kind := by
  unfold Set.Add
  split
  · rfl
  · split <;> rfl

lemma Remove_kind (s : Set) (items : List Value) : ((s.Remove items).1).kind = s.kind := by
  unfold Set.Remove
  split
  · rfl
  · split <;> rfl

lemma Add_error_unchanged : (s.Add items).2.isSome = true → (s.Add items).1 = s := by
  unfold Set.Add
  split
  · intro _; rfl
  · split
    · intro _; rfl
    · intro h; simp at h

@[simp] lemma addEach_nil (u : Set) : u.addEach [] = u := rfl

@[simp] lemma addEach_cons (u : Set) (x : Value) (l : List Value) :
    u.addEach (x :: l) = ((u.Add [x]).1).addEach l := rfl

@[simp] lemma removeEach_nil (u : Set) : u.removeEach [] = u := rfl

@[simp] lemma removeEach_cons (u : Set) (x : Value) (l : List Value) :
    u.removeEach (x :: l) = ((u.Remove [x]).1).removeEach l := rfl

lemma addEach_kind : ∀ (l : List Value) (u : Set), (u.addEach l).kind = u.kind := by
  intro l
  induction l with
  | nil => intro u; rfl
  | cons x xs ih =>
    intro u
    rw [addEach_cons, ih, Add_kind]

lemma addEach_not_slice : ∀ (l : List Value) (u : Set),
    u.kind ≠ Kind.slice → u.addEach l = u := by
  intro l
  induction l with
  | nil => intro u _; rfl
  | cons x xs ih =>
    intro u hk
    have h1 : (u.Add [x]).1 = u := by rw [Add_not_slice hk (by simp)]
    rw [addEach_cons, h1, ih u hk]

lemma addEach_slice : ∀ (l : List Value) (u : Set), u.kind = Kind.slice →
    u.addEach l = Set.mk (l.foldl insertKey u.m) u.kind := by
  intro l
  induction l with
  | nil => intro u _; rfl
  | cons x xs ih =>
    intro u hk
    rw [addEach_cons, Add_slice hk, ih (Set.mk ([x].foldl insertKey u.m) u.kind) hk]
    rfl

lemma mem_addEach_slice (hk : u.kind = Kind.slice) :
    a ∈ (u.addEach l).m ↔ a ∈ u.m ∨ a ∈ l := by
  rw [addEach_slice l u hk]
  exact mem_foldl_insertKey l u.m

@[simp] lemma New_kind (k : Kind) (items : List Value) : (New k items).kind = k :=
  Add_kind (Set.mk [] k) items

lemma New_not_slice {k : Kind} (hk : k ≠ Kind.slice) (items : List Value) :
    New k items = Set.mk [] k := by
  cases items with
  | nil => rfl
  | cons x xs =>
    unfold New
    rw [Add_not_slice hk (by simp)]

lemma New_slice (items : List Value) :
    New Kind.slice items = Set.mk (items.foldl insertKey []) Kind.slice := by
  unfold New
  rw [Add_slice rfl]

lemma foldl_kind (g : Set → Value → Set) (hg : ∀ u x, (g u x).kind = u.kind) :
    ∀ (l : List Value) (u : Set), (l.foldl g u).kind = u.kind := by
  intro l
  induction l with
  | nil => intro u; rfl
  | cons x xs ih => intro u; rw [List.foldl_cons, ih, hg]

lemma Union_ok (h : s.kind = t.kind) :
    s.Union t = .ok ((New s.kind t.m).addEach s.m) := by
  unfold Set.Union
  rw [typematch_of_eq h]
  rfl

lemma Union_kind (h : s.kind = t.kind) :
    ∃ u, s.Union t = .ok u ∧ u.kind = s.kind := by
  refine ⟨_, Union_ok h, ?_⟩
  rw [addEach_kind, New_kind]

lemma Union_self (h : s.WF) : s.Union s = .ok s := by
  obtain ⟨m, k⟩ := s
  rw [Union_ok rfl]
  by_cases hk : k = Kind.slice
  · subst hk
    show Except.ok ((New Kind.slice m).addEach m) = _
    rw [New_slice, foldl_insertKey_nil h.1,
      addEach_slice m (Set.mk m Kind.slice) rfl,
      foldl_insertKey_of_subset m m (fun x hx => hx)]
  · have hm : m = [] := h.2 hk
    subst hm
    show Except.ok ((New k []).addEach []) = _
    rw [New_not_slice hk]
    rfl

lemma IsEqual_of_eq (h : s.kind = t.kind) :
    s.IsEqual t = if s.Size ≠ t.Size then (false, none)
      else match s.Union t with
        | .ok u => if s.Size ≠ u.Size then (false, none) else (true, none)
        | .error _ => (false, none) := by
  unfold Set.IsEqual
  rw [typematch_of_eq h]

lemma IsEqual_snd_of_eq (h : s.kind = t.kind) : (s.IsEqual t).2 = none := by
  rw [IsEqual_of_eq h]
  split
  · rfl
  · split
    · split <;> rfl
    · rfl

lemma IsEqual_self (h : s.WF) : s.IsEqual s = (true, none) := by
  rw [IsEqual_of_eq rfl, Union_self h]
  simp

lemma IsSubset_of_eq (h : s.kind = t.kind) :
    s.IsSubset t = (t.m.all (fun item => (s.Has [item]).1), none) := by
  unfold Set.IsSubset
  rw [typematch_of_eq h]
  rfl

lemma Copy_eq_self (h : s.WF) : s.Copy = s := by
  obtain ⟨m, k⟩ := s
  unfold Set.Copy
  by_cases hk : k = Kind.slice
  · subst hk
    show New Kind.slice m = _
    rw [New_slice, foldl_insertKey_nil h.1]
  · have hm : m = [] := h.2 hk
    subst hm
    show New k [] = _
    rfl

lemma Difference_ok (h : s.kind = t.kind) :
    s.Difference t = .ok (s.m.foldl
      (fun u item => if (t.Has [item]).1 then u else (u.Add [item]).1)
      (New s.kind [])) := by
  unfold Set.Difference
  rw [typematch_of_eq h]
  rfl

lemma Difference_kind (h : s.kind = t.kind) :
    ∃ u, s.Difference t = .ok u ∧ u.kind = s.kind := by
  refine ⟨_, Difference_ok h, ?_⟩
  rw [foldl_kind, New_kind]
  intro u x
  split
  · rfl
  · exact Add_kind ..

lemma Intersection_ok (h : s.kind = t.kind) : ∃ u, s.Intersection t = .ok u := by
  unfold Set.Intersection
  rw [typematch_of_eq h]
  exact ⟨_, rfl⟩

lemma SymmetricDifference_eq (h : s.kind = t.kind) :
    ∃ u v w, s.Difference t = .ok u ∧ t.Difference s = .ok v ∧
      u.Union v = .ok w ∧ s.SymmetricDifference t = .ok w := by
  obtain ⟨u, hu, hku⟩ := Difference_kind h
  obtain ⟨v, hv, hkv⟩ := Difference_kind h.symm
  obtain ⟨w, hw, hkw⟩ := Union_kind (hku.trans (h.trans hkv.symm))
  refine ⟨u, v, w, hu, hv, hw, ?_⟩
  unfold Set.SymmetricDifference
  rw [typematch_of_eq h, hu, hv]
  show u.Union v = Except.ok w
  exact hw

end Lemmas

section Claims

/-- C1: the spec claims that for every set of kind K and element x of type
K, Add(x) followed by Has(x) returns true (and Remove(x) then Has(x)
false).  The code violates the Add/Has half: on an int-kind set, `Add(3)`
hands `typecheck` the whole argument slice — a value of kind `slice` — so
the call fails with a type-violation error, nothing is inserted, and
`Has(3)` returns false (with the same error).  This theorem evaluates the
code at that failing input. -/
theorem C1_add_then_has_fails_at_int :
    (New Kind.int []).Add [Value.vint 3] =
      (Set.mk [] Kind.int, some (Err.typeViolation Kind.slice Kind.int)) ∧
    ((New Kind.int []).Add [Value.vint 3]).1.Has [Value.vint 3] =
      (false, some (Err.typeViolation Kind.slice Kind.int)) := by
  decide

/-- C2: on a set whose kind is not `slice`, every non-empty `Add`, `Remove`
or `Has` call fails with the type-violation error naming kind `slice` (the
kind of the unexpanded argument slice that `typecheck` receives); `Add` and
`Remove` leave the set unchanged and `Has` returns false. -/
theorem C2_nonslice_ops_always_fail (s : Set) (items : List Value)
    (hk : s.kind ≠ Kind.slice) (hne : items ≠ []) :
    s.Add items = (s, some (Err.typeViolation Kind.slice s.kind)) ∧
    s.Remove items = (s, some (Err.typeViolation Kind.slice s.kind)) ∧
    s.Has items = (false, some (Err.typeViolation Kind.slice s.kind)) :=
  ⟨Add_not_slice hk hne, Remove_not_slice hk hne, Has_not_slice hk hne⟩

/-- C2 witness: the general theorem instantiated at an int-kind set holding
one element and a well-typed int argument. -/
theorem C2_witness :
    (Set.mk [Value.vint 1] Kind.int).Add [Value.vint 2] =
      (Set.mk [Value.vint 1] Kind.int, some (Err.typeViolation Kind.slice Kind.int)) ∧
    (Set.mk [Value.vint 1] Kind.int).Remove [Value.vint 2] =
      (Set.mk [Value.vint 1] Kind.int, some (Err.typeViolation Kind.slice Kind.int)) ∧
    (Set.mk [Value.vint 1] Kind.int).Has [Value.vint 2] =
      (false, some (Err.typeViolation Kind.slice Kind.int)) :=
  C2_nonslice_ops_always_fail (Set.mk [Value.vint 1] Kind.int) [Value.vint 2]
    (by decide) (by decide)

/-- C3: the spec claims Has fails whenever some item mismatches the set's
kind.  The code violates this: on a slice-kind set, `Has(3)` — an int item,
mismatching the kind — passes `typecheck` (which only ever sees the
argument slice, of kind `slice`) and returns `(false, nil)` with no error. -/
theorem C3_has_skips_item_typecheck :
    (Value.vint 3).kind ≠ Kind.slice ∧
    (New Kind.slice []).Has [Value.vint 3] = (false, none) := by
  decide

/-- C4: the spec claims Add type-checks every given item and inserts
nothing when any item mismatches the kind.  The code violates this: on a
slice-kind set, `Add(3)` — an int item, mismatching the kind — is inserted
and no error is returned, because `typecheck` only ever sees the argument
slice, of kind `slice`. -/
theorem C4_add_inserts_mismatched_item :
    (Value.vint 3).kind ≠ Kind.slice ∧
    (New Kind.slice []).Add [Value.vint 3] =
      (Set.mk [Value.vint 3] Kind.slice, none) := by
  decide

/-- C5: on sets of differing kinds, each of the eight binary operations
returns the kind-mismatch error, and the receiver (the only operand a Go
binary operation could mutate) is returned unchanged by Merge and
Separate. -/
theorem C5_kind_mismatch_all_ops (s t : Set) (h : s.kind ≠ t.kind) :
    s.Union t = .error (Err.kindMismatch s.kind t.kind) ∧
    s.Intersection t = .error (Err.kindMismatch s.kind t.kind) ∧
    s.Difference t = .error (Err.kindMismatch s.kind t.kind) ∧
    s.SymmetricDifference t = .error (Err.kindMismatch s.kind t.kind) ∧
    s.Merge t = (s, some (Err.kindMismatch s.kind t.kind)) ∧
    s.Separate t = (s, some (Err.kindMismatch s.kind t.kind)) ∧
    s.IsEqual t = (false, some (Err.kindMismatch s.kind t.kind)) ∧
    s.IsSubset t = (false, some (Err.kindMismatch s.kind t.kind)) := by
  have hm := typematch_of_ne h
  refine ⟨?_, ?_, ?_, ?_, ?_, ?_, ?_, ?_⟩
  · unfold Set.Union; rw [hm]
  · unfold Set.Intersection; rw [hm]
  · unfold Set.Difference; rw [hm]
  · unfold Set.SymmetricDifference; rw [hm]
  · unfold Set.Merge; rw [hm]
  · unfold Set.Separate; rw [hm]
  · unfold Set.IsEqual; rw [hm]
  · unfold Set.IsSubset; rw [hm]

/-- C5 witness: an int-kind and a string-kind set. -/
theorem C5_witness :
    (Set.mk [] Kind.int).Union (Set.mk [] Kind.string) =
      .error (Err.kindMismatch Kind.int Kind.string) ∧
    (Set.mk [] Kind.int).Intersection (Set.mk [] Kind.string) =
      .error (Err.kindMismatch Kind.int Kind.string) ∧
    (Set.mk [] Kind.int).Difference (Set.mk [] Kind.string) =
      .error (Err.kindMismatch Kind.int Kind.string) ∧
    (Set.mk [] Kind.int).SymmetricDifference (Set.mk [] Kind.string) =
      .error (Err.kindMismatch Kind.int Kind.string) ∧
    (Set.mk [] Kind.int).Merge (Set.mk [] Kind.string) =
      (Set.mk [] Kind.int, some (Err.kindMismatch Kind.int Kind.string)) ∧
    (Set.mk [] Kind.int).Separate (Set.mk [] Kind.string) =
      (Set.mk [] Kind.int, some (Err.kindMismatch Kind.int Kind.string)) ∧
    (Set.mk [] Kind.int).IsEqual (Set.mk [] Kind.string) =
      (false, some (Err.kindMismatch Kind.int Kind.string)) ∧
    (Set.mk [] Kind.int).IsSubset (Set.mk [] Kind.string) =
      (false, some (Err.kindMismatch Kind.int Kind.string)) :=
  C5_kind_mismatch_all_ops (Set.mk [] Kind.int) (Set.mk [] Kind.string) (by decide)

/-- C6: for every API-reachable set A, the copy has A's kind and exactly
A's elements, and `Copy(A).IsEqual(A)` returns `(true, nil)`.  Mutation
independence is inherent in the embedding: every operation returns a new
`Set` value, so no operation on the copy can alter A. -/
theorem C6_copy_isEqual (A : Set) (h : A.WF) :
    A.Copy.kind = A.kind ∧ A.Copy.m = A.m ∧ A.Copy.IsEqual A = (true, none) := by
  rw [Copy_eq_self h]
  exact ⟨rfl, rfl, IsEqual_self h⟩

/-- C6 witness: a slice-kind set with two elements. -/
theorem C6_witness :
    (Set.mk [Value.vint 1, Value.vint 2] Kind.slice).Copy.kind = Kind.slice ∧
    (Set.mk [Value.vint 1, Value.vint 2] Kind.slice).Copy.m =
      [Value.vint 1, Value.vint 2] ∧
    (Set.mk [Value.vint 1, Value.vint 2] Kind.slice).Copy.IsEqual
      (Set.mk [Value.vint 1, Value.vint 2] Kind.slice) = (true, none) :=
  C6_copy_isEqual (Set.mk [Value.vint 1, Value.vint 2] Kind.slice) (by constructor <;> decide)

/-- C7: for same-kind operands, SymmetricDifference returns exactly the set
produced by `Union(Difference(A,B), Difference(B,A))` — which is also how
the source computes it. -/
theorem C7_symmdiff_refines (A B : Set) (h : A.kind = B.kind) :
    A.SymmetricDifference B =
      (A.Difference B).bind (fun u => (B.Difference A).bind fun v => u.Union v) := by
  obtain ⟨u, v, w, hu, hv, hw, hs⟩ := SymmetricDifference_eq h
  rw [hs, hu, hv]
  show Except.ok w = u.Union v
  exact hw.symm

/-- C7 witness: A = {1,2}, B = {2,3} as slice-kind sets. -/
theorem C7_witness :
    (Set.mk [Value.vint 1, Value.vint 2] Kind.slice).SymmetricDifference
      (Set.mk [Value.vint 2, Value.vint 3] Kind.slice) =
    ((Set.mk [Value.vint 1, Value.vint 2] Kind.slice).Difference
      (Set.mk [Value.vint 2, Value.vint 3] Kind.slice)).bind
      (fun u => ((Set.mk [Value.vint 2, Value.vint 3] Kind.slice).Difference
        (Set.mk [Value.vint 1, Value.vint 2] Kind.slice)).bind fun v => u.Union v) :=
  C7_symmdiff_refines (Set.mk [Value.vint 1, Value.vint 2] Kind.slice)
    (Set.mk [Value.vint 2, Value.vint 3] Kind.slice) rfl

/-- C8 counterexample: as stated, the claim applies `IsSubset` with the
receiver A and argument `Union(A,B)`, and the receiver's `IsSubset` tests
whether its ARGUMENT is a subset of the RECEIVER.  With A empty and
B = {1} (slice kind), `Union(A,B) = {1}` and `A.IsSubset({1})` is
`(false, nil)`: the claim is false at this input. -/
theorem C8_counterexample :
    ((New Kind.slice []).Union (New Kind.slice [Value.vint 1])).map
      (fun u => (New Kind.slice []).IsSubset u) = .ok (false, none) := by
  rfl

/-- C8 (amended): with the operands of `IsSubset` exchanged — receiver
`Union(A,B)`, argument A, i.e. testing that A is a subset of the union —
the law holds for every API-reachable A and same-kind B:
`Union(A,B).IsSubset(A)` returns `(true, nil)`. -/
theorem C8_union_isSubset (A B : Set) (hA : A.WF) (h : A.kind = B.kind) :
    (A.Union B).map (fun u => u.IsSubset A) = .ok (true, none) := by
  rw [Union_ok h]
  show Except.ok (((New A.kind B.m).addEach A.m).IsSubset A) = _
  have hku : ((New A.kind B.m).addEach A.m).kind = A.kind := by
    rw [addEach_kind, New_kind]
  rw [IsSubset_of_eq hku]
  by_cases hk : A.kind = Kind.slice
  · have hall : A.m.all
        (fun item => (((New A.kind B.m).addEach A.m).Has [item]).1) = true := by
      rw [List.all_eq_true]
      intro x hx
      rw [Has_singleton_slice (hku.trans hk)]
      have : x ∈ ((New A.kind B.m).addEach A.m).m :=
        (mem_addEach_slice (by rw [New_kind]; exact hk)).mpr (Or.inr hx)
      simpa using this
    rw [hall]
  · have hm : A.m = [] := hA.2 hk
    rw [hm]
    rfl

/-- C8 witness: A = {1}, B = {2} as slice-kind sets. -/
theorem C8_witness :
    ((Set.mk [Value.vint 1] Kind.slice).Union (Set.mk [Value.vint 2] Kind.slice)).map
      (fun u => u.IsSubset (Set.mk [Value.vint 1] Kind.slice)) = .ok (true, none) :=
  C8_union_isSubset (Set.mk [Value.vint 1] Kind.slice)
    (Set.mk [Value.vint 2] Kind.slice) (by constructor <;> decide) rfl

/-- C9: `New` returns a set of the requested kind and no error: it is
literally the set component of the internal `Add` call, whose error return
is discarded; whenever that `Add` call reports an error the constructed set
is the empty set of the requested kind, i.e. the rejected initial items are
silently absent. -/
theorem C9_new_discards_error (k : Kind) (items : List Value) :
    (New k items).kind = k ∧
    New k items = ((Set.mk [] k).Add items).1 ∧
    (((Set.mk [] k).Add items).2.isSome = true → New k items = Set.mk [] k) :=
  ⟨New_kind k items, rfl, fun h => Add_error_unchanged h⟩

/-- C9 witness: `New(int, 3)` — the internal Add fails (slice-wrapped
argument) and the constructed set is empty. -/
theorem C9_witness :
    ((Set.mk [] Kind.int).Add [Value.vint 3]).2.isSome = true ∧
    New Kind.int [Value.vint 3] = Set.mk [] Kind.int :=
  ⟨by decide, (C9_new_discards_error Kind.int [Value.vint 3]).2.2 (by decide)⟩

/-- C10: kind homogeneity is enforced only at `reflect.Kind` granularity:
any two sets with equal kind tags pass `typematch` (so every binary
operation proceeds past the kind check), and any item list whose members'
runtime kinds equal the set's tag passes `typecheck`, regardless of the
concrete types behind the kinds. -/
theorem C10_kind_granularity (s t : Set) (items : List Value)
    (hk : s.kind = t.kind) (hi : ∀ i ∈ items, i.kind = s.kind) :
    s.typematch t = none ∧ s.typecheck items = none ∧
    (s.Union t).isOk = true ∧ (s.Intersection t).isOk = true ∧
    (s.Difference t).isOk = true ∧ (s.SymmetricDifference t).isOk = true ∧
    (s.Merge t).2 = none ∧ (s.Separate t).2 = none ∧
    (s.IsEqual t).2 = none ∧ (s.IsSubset t).2 = none := by
  refine ⟨typematch_of_eq hk, typecheck_of_kinds hi, ?_, ?_, ?_, ?_, ?_, ?_,
    IsEqual_snd_of_eq hk, ?_⟩
  · rw [Union_ok hk]; rfl
  · obtain ⟨u, hu⟩ := Intersection_ok hk
    rw [hu]; rfl
  · rw [Difference_ok hk]; rfl
  · obtain ⟨u, v, w, _, _, _, hs⟩ := SymmetricDifference_eq hk
    rw [hs]; rfl
  · unfold Set.Merge; rw [typematch_of_eq hk]
  · unfold Set.Separate; rw [typematch_of_eq hk]
  · rw [IsSubset_of_eq hk]

/-- C10 witness: two struct-kind sets and two items of distinct concrete
struct types, both of kind `struct`. -/
theorem C10_witness :
    (Set.mk [] Kind.struct).typematch (Set.mk [] Kind.struct) = none ∧
    (Set.mk [] Kind.struct).typecheck
      [Value.vstruct fooName ValueList.nil, Value.vstruct barName ValueList.nil] = none ∧
    ((Set.mk [] Kind.struct).Union (Set.mk [] Kind.struct)).isOk = true ∧
    ((Set.mk [] Kind.struct).Intersection (Set.mk [] Kind.struct)).isOk = true ∧
    ((Set.mk [] Kind.struct).Difference (Set.mk [] Kind.struct)).isOk = true ∧
    ((Set.mk [] Kind.struct).SymmetricDifference (Set.mk [] Kind.struct)).isOk = true ∧
    ((Set.mk [] Kind.struct).Merge (Set.mk [] Kind.struct)).2 = none ∧
    ((Set.mk [] Kind.struct).Separate (Set.mk [] Kind.struct)).2 = none ∧
    ((Set.mk [] Kind.struct).IsEqual (Set.mk [] Kind.struct)).2 = none ∧
    ((Set.mk [] Kind.struct).IsSubset (Set.mk [] Kind.struct)).2 = none :=
  C10_kind_granularity (Set.mk [] Kind.struct) (Set.mk [] Kind.struct)
    [Value.vstruct fooName ValueList.nil, Value.vstruct barName ValueList.nil]
    rfl (by decide)

end Claims

end Goset
